import Mathlib

/-!
Shallow embedding of the Book-Alchemy library manager (src/app.py,
src/data/models.py).  Python strings are modelled as `List Char`
(ASCII fragment); `None`-able values as `Option`; functions that can
raise `ValueError` return `Except String` carrying the raised message.
-/

namespace BookAlchemy

/-- Characters Python's `str.strip()` removes (ASCII whitespace). -/
def isPySpace (c : Char) : Bool :=
  c == ' ' || c == '\t' || c == '\n' || c == '\r' || c.toNat == 11 || c.toNat == 12

/-- Models Python `s.strip()` on the ASCII fragment. -/
def pyStrip (s : List Char) : List Char :=
  ((s.dropWhile isPySpace).reverse.dropWhile isPySpace).reverse

/-- Numeric value of an ASCII digit character. -/
def digitVal (c : Char) : Nat := c.toNat - 48

/-- Value of a list of ASCII digit characters, most significant first. -/
def natOfDigits (l : List Char) : Nat :=
  l.foldl (fun a c => a * 10 + digitVal c) 0

/-- Digit-run part of Python `int(...)` parsing: after the first digit,
a single `_` may separate digits (`1_23` is legal, `1__3`, `1_` are not). -/
def pyDigitsAux : List Char → Nat → Option Nat
  | [], acc => some acc
  | '_' :: c :: rest, acc =>
      if c.isDigit then pyDigitsAux rest (acc * 10 + digitVal c) else none
  | ['_'], _ => none
  | c :: rest, acc =>
      if c.isDigit then pyDigitsAux rest (acc * 10 + digitVal c) else none

/-- A digit sequence must start with a digit (no leading underscore). -/
def pyDigitsStart : List Char → Option Nat
  | [] => none
  | c :: rest => if c.isDigit then pyDigitsAux rest (digitVal c) else none

/-- Sign handling of Python `int(...)`. -/
def pyIntCore : List Char → Option Int
  | '+' :: rest => (pyDigitsStart rest).map Int.ofNat
  | '-' :: rest => (pyDigitsStart rest).map (fun n => -(n : Int))
  | s => (pyDigitsStart s).map Int.ofNat

/-- Models Python `int(s)` on an ASCII string: surrounding whitespace is
ignored, an optional sign is followed by digits with optional single
underscores between them. -/
def pyInt (s : List Char) : Option Int := pyIntCore (pyStrip s)

/-- The characters `normalize_isbn` keeps: `c.isdigit() or c.lower() == 'x'`. -/
def isbnChar (c : Char) : Bool := c.isDigit || c.toLower == 'x'

/-- `normalize_isbn` (src/app.py:24-28): `None` for a falsy input, else keep
only digits and `x`/`X`. -/
def normalize_isbn (isbn : List Char) : Option (List Char) :=
  if isbn.isEmpty then none else some (isbn.filter isbnChar)

/-- `format_isbn` (src/app.py:30-38): hyphenate a 13-digit ISBN as
`s[0:3]-s[3]-s[4:7]-s[7:12]-s[12]` and a 10-digit ISBN as
`s[0]-s[1:4]-s[4:9]-s[9]`; anything else is returned unchanged
(falsy input gives the empty string). -/
def format_isbn (isbn : Option (List Char)) : List Char :=
  match isbn with
  | none => []
  | some s =>
    if s.isEmpty then []
    else if s.length = 13 then
      s.take 3 ++ '-' :: (s.drop 3).take 1 ++ '-' :: (s.drop 4).take 3 ++
        '-' :: (s.drop 7).take 5 ++ '-' :: (s.drop 12).take 1
    else if s.length = 10 then
      s.take 1 ++ '-' :: (s.drop 1).take 3 ++ '-' :: (s.drop 4).take 5 ++
        '-' :: (s.drop 9).take 1
    else s

/-- The `ValueError` message of `validate_isbn` for a bad length. -/
def isbnLenErr (n : Nat) : String :=
  "ISBN muss 10 oder 13 Stellen haben, hat aber " ++ toString n ++ " Stellen"

/-- `validate_isbn` (src/app.py:69-81): falsy input passes through as `None`;
otherwise the input is normalized and the normalized length must be 10
or 13, else a `ValueError` naming the length is raised. -/
def validate_isbn (isbn : List Char) : Except String (Option (List Char)) :=
  if isbn.isEmpty then .ok none
  else
    let cleaned := (normalize_isbn isbn).getD []
    if cleaned.length = 10 ∨ cleaned.length = 13 then .ok (some cleaned)
    else .error (isbnLenErr cleaned.length)

/-! ### Dates -/

/-- A calendar date as Python's `datetime` holds it (time parts are always
midnight in this program, so they are omitted). -/
structure DateT where
  year : Nat
  month : Nat
  day : Nat
deriving DecidableEq

/-- Strict `datetime` comparison, lexicographic on (year, month, day);
the times the program compares are all midnight except `datetime.now()`,
whose time-of-day never changes the date-level outcome of `>`. -/
def dateLtB (a b : DateT) : Bool :=
  Nat.blt a.year b.year ||
    (a.year == b.year && (Nat.blt a.month b.month ||
      (a.month == b.month && Nat.blt a.day b.day)))

/-- Proleptic-Gregorian leap-year test used by `datetime`. -/
def isLeap (y : Nat) : Bool := y % 4 == 0 && (y % 100 != 0 || y % 400 == 0)

/-- Days in a month, as `datetime` validates them. -/
def daysInMonth (y m : Nat) : Nat :=
  if m = 2 then (if isLeap y then 29 else 28)
  else if m = 4 ∨ m = 6 ∨ m = 9 ∨ m = 11 then 30
  else 31

/-- The `datetime(y, m, d)` constructor: valid for years 1..9999, months
1..12 and days up to the month length; otherwise it raises. -/
def mkDatetime (y m d : Nat) : Option DateT :=
  if 1 ≤ y ∧ y ≤ 9999 ∧ 1 ≤ m ∧ m ≤ 12 ∧ 1 ≤ d ∧ d ≤ daysInMonth y m
  then some ⟨y, m, d⟩ else none

/-- Split a character list at every occurrence of `sep` (separators are
dropped; `n` separators give `n+1` groups). -/
def splitOnC (sep : Char) : List Char → List (List Char)
  | [] => [[]]
  | c :: rest =>
    if c == sep then [] :: splitOnC sep rest
    else
      match splitOnC sep rest with
      | [] => [[c]]
      | g :: gs => (c :: g) :: gs

/-- A 1-or-2-digit numeric field with value in `[1, hi]`, exactly the strings
CPython's `_strptime` directive for `%m` (`hi = 12`) or `%d` (`hi = 31`)
matches. -/
def fieldOK (l : List Char) (hi : Nat) : Prop :=
  l ≠ [] ∧ l.length ≤ 2 ∧ l.all Char.isDigit = true ∧
    1 ≤ natOfDigits l ∧ natOfDigits l ≤ hi

instance (l : List Char) (hi : Nat) : Decidable (fieldOK l hi) := by
  unfold fieldOK
  exact inferInstance

/-- Models `datetime.strptime(t, "%Y-%m-%d")`: a 4-digit year, `-`, a
1-2-digit month in 1..12, `-`, a 1-2-digit day in 1..31, nothing left over,
then the `datetime` constructor's own validation. -/
def strptimeYMD (t : List Char) : Option DateT :=
  match splitOnC '-' t with
  | [ys, ms, ds] =>
    if ys.length = 4 ∧ ys.all Char.isDigit = true ∧ fieldOK ms 12 ∧ fieldOK ds 31
    then mkDatetime (natOfDigits ys) (natOfDigits ms) (natOfDigits ds)
    else none
  | _ => none

/-- Models `datetime.strptime(t, "%d.%m.%Y")`, day and month first. -/
def strptimeDMY (t : List Char) : Option DateT :=
  match splitOnC '.' t with
  | [ds, ms, ys] =>
    if ys.length = 4 ∧ ys.all Char.isDigit = true ∧ fieldOK ms 12 ∧ fieldOK ds 31
    then mkDatetime (natOfDigits ys) (natOfDigits ms) (natOfDigits ds)
    else none
  | _ => none

/-- The `ValueError` message `validate_date` raises (it interpolates the
already-stripped string). -/
def dateErrMsg (t : List Char) : String :=
  "Ungültiges Datumsformat: " ++ String.mk t ++
    ". Bitte verwenden Sie YYYY-MM-DD, DD.MM.YYYY oder YYYY"

/-- `validate_date` (src/app.py:40-67): blank input gives `None`; otherwise
the stripped string is tried against `%Y-%m-%d`, then `%d.%m.%Y`; for the
`%Y` format a length-4 string is handed to `int(...)` and becomes January 1
of that year via `datetime(year, 1, 1)` (whose failure, like any other, falls
through); a string of any other length can never match `%Y`'s 4-digit
pattern, so the loop ends and the descriptive error is raised. -/
def validate_date (s : List Char) : Except String (Option DateT) :=
  if (pyStrip s).isEmpty then .ok none
  else
    let t := pyStrip s
    match strptimeYMD t with
    | some dt => .ok (some dt)
    | none =>
      match strptimeDMY t with
      | some dt => .ok (some dt)
      | none =>
        if t.length = 4 then
          match pyInt t with
          | some y =>
            if 1 ≤ y ∧ y ≤ 9999 then .ok (some ⟨y.toNat, 1, 1⟩)
            else .error (dateErrMsg t)
          | none => .error (dateErrMsg t)
        else .error (dateErrMsg t)

/-! ### Year validation -/

/-- The range `ValueError` message of `validate_year`. -/
def yearRangeErr (currentYear : Int) : String :=
  "Das Jahr muss zwischen 1450 und " ++ toString (currentYear + 1) ++ " liegen"

/-- `validate_year` (src/app.py:83-97): coerce to `int`; a failed coercion is
re-raised as the generic number error (its message does not start with
"Das Jahr muss"), while the range error raised inside the `try` starts with
"Das Jahr muss" and is re-raised unchanged. -/
def validate_year (year : List Char) (currentYear : Int) : Except String Int :=
  match pyInt year with
  | none => .error "Das Jahr muss eine gültige Zahl sein"
  | some y =>
    if y < 1450 ∨ y > currentYear + 1 then .error (yearRangeErr currentYear)
    else .ok y

/-! ### Persistence entities (src/data/models.py) -/

/-- `Author` row: id, name, optional birth and death dates. -/
structure AuthorRec where
  id : Int
  name : List Char
  birth_date : Option DateT
  date_of_death : Option DateT
deriving DecidableEq

/-- `Book` row: id, optional (unique) isbn, title, publication year,
required author reference. -/
structure BookRec where
  id : Int
  isbn : Option (List Char)
  title : List Char
  publication_year : Int
  author_id : Int
deriving DecidableEq

/-- Outcome of a POST handler: the resulting table and the flashed error,
if any (`none` means success). -/
structure AuthorsResult where
  authors : List AuthorRec
  error : Option String
deriving DecidableEq

/-- Outcome of `add_book`: resulting books table and flashed error. -/
structure BooksResult where
  books : List BookRec
  error : Option String
deriving DecidableEq

/-- `birth_date and date_of_death and date_of_death < birth_date`. -/
def deathBeforeBirth (birth death : Option DateT) : Bool :=
  match birth, death with
  | some b, some d => dateLtB d b
  | _, _ => false

/-- `x and x > today` for an optional date. -/
def dateInFuture (today : DateT) (x : Option DateT) : Bool :=
  match x with
  | some d => dateLtB today d
  | none => false

/-- `validate_date(s) if s else None`: the form value is only parsed when
truthy. -/
def optValidateDate (f : List Char) : Except String (Option DateT) :=
  if f.isEmpty then .ok none else validate_date f

/-- `add_author` POST branch (src/app.py:121-156): empty stripped name,
a date `ValueError`, death strictly before birth, or a future date each
flash an error and leave the table unchanged; otherwise the new author row
(with the store's next id) is committed. -/
def add_author (today : DateT) (newId : Int)
    (nameF birthF deathF : List Char)
    (authors : List AuthorRec) : AuthorsResult :=
  let name := pyStrip nameF
  if name.isEmpty then
    ⟨authors, some "Der Name des Autors darf nicht leer sein."⟩
  else
    match optValidateDate birthF with
    | .error e => ⟨authors, some e⟩
    | .ok birth =>
      match optValidateDate deathF with
      | .error e => ⟨authors, some e⟩
      | .ok death =>
        if deathBeforeBirth birth death then
          ⟨authors, some "Das Sterbedatum kann nicht vor dem Geburtsdatum liegen."⟩
        else if dateInFuture today birth then
          ⟨authors, some "Das Geburtsdatum kann nicht in der Zukunft liegen."⟩
        else if dateInFuture today death then
          ⟨authors, some "Das Sterbedatum kann nicht in der Zukunft liegen."⟩
        else
          ⟨authors ++ [⟨newId, name, birth, death⟩], none⟩

/-- The duplicate-ISBN flash message of `add_book`. -/
def duplicateIsbnErr (isbn : Option (List Char)) : String :=
  "Ein Buch mit der ISBN " ++ String.mk (format_isbn isbn) ++ " existiert bereits."

/-- `add_book` POST branch (src/app.py:168-213): validate the ISBN, then the
year, then require a non-empty stripped title; then
`Book.query.filter_by(isbn=isbn).first()` — for `isbn=None` SQLAlchemy
emits `isbn IS NULL`, so the comparison is `Option` equality — flashes the
duplicate error if a row matches; finally `int(author_id)` and the commit.
Every failure leaves the table unchanged. -/
def add_book (currentYear : Int) (newId : Int)
    (isbnF yearF titleF authorIdF : List Char)
    (books : List BookRec) : BooksResult :=
  match validate_isbn isbnF with
  | .error e => ⟨books, some e⟩
  | .ok isbn =>
    match validate_year yearF currentYear with
    | .error e => ⟨books, some e⟩
    | .ok year =>
      let title := pyStrip titleF
      if title.isEmpty then ⟨books, some "Der Titel darf nicht leer sein"⟩
      else
        match books.find? (fun b => b.isbn == isbn) with
        | some _ => ⟨books, some (duplicateIsbnErr isbn)⟩
        | none =>
          match pyInt authorIdF with
          | none =>
            ⟨books, some ("invalid literal for int() with base 10: " ++
              String.mk authorIdF)⟩
          | some aid => ⟨books ++ [⟨newId, isbn, title, year, aid⟩], none⟩

/-- Outcome of `delete_book`: both tables and whether the id was found
(`found = false` models the 404 response of `get_or_404`). -/
structure DeleteResult where
  books : List BookRec
  authors : List AuthorRec
  found : Bool
deriving DecidableEq

/-- `delete_book` (src/app.py:215-222): `Book.query.get_or_404(book_id)`
aborts with 404 when no row has the primary key, leaving everything
unchanged; otherwise exactly that row is deleted and committed. -/
def delete_book (books : List BookRec) (authors : List AuthorRec)
    (bookId : Int) : DeleteResult :=
  match books.find? (fun b => b.id == bookId) with
  | none => ⟨books, authors, false⟩
  | some _ => ⟨books.eraseP (fun b => b.id == bookId), authors, true⟩

/-! ### Listing, search and sort (`home`, src/app.py:99-116) -/

/-- All suffixes of a list, longest first (including the list itself and
the empty suffix). -/
def suffixesL : List Char → List (List Char)
  | [] => [[]]
  | c :: rest => (c :: rest) :: suffixesL rest

/-- SQL `LIKE` pattern matching: `%` matches any run of characters, `_`
any single character, every other pattern character matches itself. -/
def likeMatch : List Char → List Char → Bool
  | [], t => t.isEmpty
  | p :: ps, t =>
    if p == '%' then (suffixesL t).any (fun u => likeMatch ps u)
    else
      match t with
      | [] => false
      | c :: ts => (p == '_' || p == c) && likeMatch ps ts

/-- ASCII lowering, as SQLite's `lower()` performs it. -/
def lowerL (l : List Char) : List Char := l.map Char.toLower

/-- The pattern `f"%\x7bsearch_query\x7d%"`. -/
def ilikePattern (term : List Char) : List Char := '%' :: term ++ ['%']

/-- `Book.title.ilike(f"%\x7bsearch_query\x7d%")`: SQLAlchemy emits
`lower(title) LIKE lower(pattern)` and SQLite's `lower` folds ASCII. -/
def titleMatches (term : List Char) (b : BookRec) : Bool :=
  likeMatch (lowerL (ilikePattern term)) (lowerL b.title)

/-- Name of the author row the book's foreign key joins to (`""` when the
join partner is absent; the join filter below removes that case). -/
def authorNameOf (authors : List AuthorRec) (b : BookRec) : List Char :=
  match authors.find? (fun a => a.id == b.author_id) with
  | some a => a.name
  | none => []

/-- Whether `books_query.join(Author)` keeps the row. -/
def hasAuthor (authors : List AuthorRec) (b : BookRec) : Bool :=
  (authors.find? (fun a => a.id == b.author_id)).isSome

/-- Byte-order (BINARY collation) comparison of two ASCII strings; UTF-8
byte order coincides with code-point order. -/
def listCharLe : List Char → List Char → Bool
  | [], _ => true
  | _ :: _, [] => false
  | a :: as, b :: bs =>
    if a.toNat < b.toNat then true
    else if b.toNat < a.toNat then false
    else listCharLe as bs

/-- Insert into a sorted list, keeping earlier equal elements first. -/
def insertBy (le : α → α → Bool) (x : α) : List α → List α
  | [] => [x]
  | y :: ys => if le x y then x :: y :: ys else y :: insertBy le x ys

/-- Insertion sort; models the `ORDER BY ... ASC` of the query (the claim
only constrains the output up to ordering by the key). -/
def isort (le : α → α → Bool) : List α → List α
  | [] => []
  | x :: xs => insertBy le x (isort le xs)

/-- `home` (src/app.py:99-116): start from all books; a truthy `search`
restricts by the `ilike` filter; `sort_by == 'title'` orders by title,
`sort_by == 'author'` joins to `Author` and orders by author name; anything
else leaves natural storage order. -/
def home (books : List BookRec) (authors : List AuthorRec)
    (search sortKey : List Char) : List BookRec :=
  let q := if search.isEmpty then books else books.filter (titleMatches search)
  if sortKey = "title".toList then
    isort (fun a b => listCharLe a.title b.title) q
  else if sortKey = "author".toList then
    isort (fun a b => listCharLe (authorNameOf authors a) (authorNameOf authors b))
      (q.filter (hasAuthor authors))
  else q

/-! ### C1: ISBN validation -/

/-- C1: for every non-empty ISBN input, `validate_isbn` normalizes it by
keeping only decimal digits and `x`/`X` and succeeds with exactly the
normalized string when the normalized length is 10 or 13; any other
normalized length fails with the error naming that length. -/
theorem validate_isbn_length_spec (s : List Char) (hs : s ≠ []) :
    ((s.filter isbnChar).length = 10 ∨ (s.filter isbnChar).length = 13 →
      validate_isbn s = .ok (some (s.filter isbnChar))) ∧
    ((s.filter isbnChar).length ≠ 10 → (s.filter isbnChar).length ≠ 13 →
      validate_isbn s = .error (isbnLenErr (s.filter isbnChar).length)) := by
  cases s with
  | nil => exact absurd rfl hs
  | cons a t =>
    constructor
    · intro h
      rcases h with h | h <;> simp [validate_isbn, normalize_isbn, h]
    · intro h10 h13
      simp [validate_isbn, normalize_isbn, h10, h13]

/-- C1 witness: a hyphenated 13-digit ISBN normalizes and validates; a
9-character digit string fails citing length 9. -/
theorem validate_isbn_length_spec_witness :
    validate_isbn "978-3-16-148410-0".toList = .ok (some "9783161484100".toList) ∧
    validate_isbn "123456789".toList = .error (isbnLenErr 9) := by
  constructor
  · exact (validate_isbn_length_spec "978-3-16-148410-0".toList (by decide)).1
      (Or.inr (by decide))
  · have h := (validate_isbn_length_spec "123456789".toList (by decide)).2
      (by decide) (by decide)
    simpa using h

/-! ### C3: year validation -/

/-- C3: `validate_year` coerces to an integer; non-numeric input gives the
generic number error; a numeric value succeeds exactly on
`[1450, current_year+1]` and otherwise fails with the range error; in
particular `1449` fails and `1450` succeeds. -/
theorem validate_year_spec (s : List Char) (cy : Int) (hcy : 1449 ≤ cy) :
    (pyInt s = none →
      validate_year s cy = .error "Das Jahr muss eine gültige Zahl sein") ∧
    (∀ y : Int, pyInt s = some y → 1450 ≤ y → y ≤ cy + 1 →
      validate_year s cy = .ok y) ∧
    (∀ y : Int, pyInt s = some y → (y < 1450 ∨ cy + 1 < y) →
      validate_year s cy = .error (yearRangeErr cy)) ∧
    validate_year "1449".toList cy = .error (yearRangeErr cy) ∧
    validate_year "1450".toList cy = .ok 1450 := by
  refine ⟨?_, ?_, ?_, ?_, ?_⟩
  · intro h; simp [validate_year, h]
  · intro y hy h1 h2
    have hb : ¬(y < 1450 ∨ y > cy + 1) := by omega
    simp [validate_year, hy, hb]
  · intro y hy h
    have hb : y < 1450 ∨ y > cy + 1 := by omega
    simp [validate_year, hy, hb]
  · have hy : pyInt ['1', '4', '4', '9'] = some (1449 : Int) := by decide
    have hb : (1449 : Int) < 1450 ∨ (1449 : Int) > cy + 1 := Or.inl (by norm_num)
    simp [validate_year, hy, hb]
  · have hy : pyInt ['1', '4', '5', '0'] = some (1450 : Int) := by decide
    have hb : ¬((1450 : Int) < 1450 ∨ (1450 : Int) > cy + 1) := by omega
    simp [validate_year, hy, hb]
    omega

/-- C3 witness at current year 2026: `"abc"` gives the generic error,
`2027 = current_year+1` succeeds, `2028 = current_year+2` and `1449` fail
with the range error, `1450` succeeds. -/
theorem validate_year_spec_witness :
    validate_year "abc".toList 2026 = .error "Das Jahr muss eine gültige Zahl sein" ∧
    validate_year "2027".toList 2026 = .ok 2027 ∧
    validate_year "2028".toList 2026 = .error (yearRangeErr 2026) ∧
    validate_year "1449".toList 2026 = .error (yearRangeErr 2026) ∧
    validate_year "1450".toList 2026 = .ok 1450 := by
  have h := validate_year_spec "abc".toList 2026 (by decide)
  have h27 := (validate_year_spec "2027".toList 2026 (by decide)).2.1 2027
    (by decide) (by decide) (by decide)
  have h28 := (validate_year_spec "2028".toList 2026 (by decide)).2.2.1 2028
    (by decide) (Or.inr (by decide))
  exact ⟨h.1 (by decide), h27, h28, h.2.2.2.1, h.2.2.2.2⟩

/-! ### C8 / C9: ISBN formatting -/

/-- A normalized ISBN: every character is a digit or `x`/`X`. -/
def NormalizedIsbn (s : List Char) : Prop := ∀ c ∈ s, isbnChar c = true

instance (s : List Char) : Decidable (NormalizedIsbn s) := by
  unfold NormalizedIsbn
  exact inferInstance

theorem take_drop_chain (s : List Char) (n a m : Nat) (hm : n + a = m) :
    (s.drop n).take a ++ s.drop m = s.drop n := by
  subst hm
  rw [← List.drop_drop, List.take_append_drop]

theorem isbn13_decomp (s : List Char) (h : s.length = 13) :
    s.take 3 ++ ((s.drop 3).take 1 ++ ((s.drop 4).take 3 ++
      ((s.drop 7).take 5 ++ (s.drop 12).take 1))) = s := by
  have h12 : (s.drop 12).take 1 = s.drop 12 :=
    List.take_of_length_le (by simp [h])
  rw [h12, take_drop_chain s 7 5 12 rfl, take_drop_chain s 4 3 7 rfl,
    take_drop_chain s 3 1 4 rfl, List.take_append_drop]

theorem isbn10_decomp (s : List Char) (h : s.length = 10) :
    s.take 1 ++ ((s.drop 1).take 3 ++ ((s.drop 4).take 5 ++
      (s.drop 9).take 1)) = s := by
  have h9 : (s.drop 9).take 1 = s.drop 9 :=
    List.take_of_length_le (by simp [h])
  rw [h9, take_drop_chain s 4 5 9 rfl, take_drop_chain s 1 3 4 rfl,
    List.take_append_drop]

theorem filter_isbn_take_drop (s : List Char) (hn : NormalizedIsbn s)
    (n a : Nat) : ((s.drop n).take a).filter isbnChar = (s.drop n).take a :=
  List.filter_eq_self.mpr fun c hc =>
    hn c (List.mem_of_mem_drop (List.mem_of_mem_take hc))

theorem format_isbn_13 (s : List Char) (h : s.length = 13) :
    format_isbn (some s) =
      s.take 3 ++ '-' :: ((s.drop 3).take 1 ++ '-' :: ((s.drop 4).take 3 ++
        '-' :: ((s.drop 7).take 5 ++ '-' :: (s.drop 12).take 1))) := by
  have hne : s ≠ [] := by intro hh; rw [hh] at h; simp at h
  have he : s.isEmpty = false := by simp [List.isEmpty_iff, hne]
  simp [format_isbn, he, h]

theorem format_isbn_10 (s : List Char) (h : s.length = 10) :
    format_isbn (some s) =
      s.take 1 ++ '-' :: ((s.drop 1).take 3 ++ '-' :: ((s.drop 4).take 5 ++
        '-' :: (s.drop 9).take 1)) := by
  have hne : s ≠ [] := by intro hh; rw [hh] at h; simp at h
  have he : s.isEmpty = false := by simp [List.isEmpty_iff, hne]
  have h13 : ¬ s.length = 13 := by omega
  simp [format_isbn, he, h, h13]

/-- C9: for every normalized ISBN of length 10 or 13, normalizing the
formatted string gives back the original: formatting only inserts hyphens
and normalization removes exactly those. -/
theorem normalize_format_isbn_roundtrip (s : List Char) (hn : NormalizedIsbn s)
    (hl : s.length = 10 ∨ s.length = 13) :
    normalize_isbn (format_isbn (some s)) = some s := by
  have hx : isbnChar '-' = false := by decide
  rcases hl with h | h
  · rw [format_isbn_10 s h]
    have hne : (s.take 1).length = 1 := by simp [h]
    have hne2 : s.take 1 ++ '-' :: ((s.drop 1).take 3 ++ '-' :: ((s.drop 4).take 5 ++
        '-' :: (s.drop 9).take 1)) ≠ [] := by
      intro hh
      have := congrArg List.length hh
      simp [hne] at this
    have he : (s.take 1 ++ '-' :: ((s.drop 1).take 3 ++ '-' :: ((s.drop 4).take 5 ++
        '-' :: (s.drop 9).take 1))).isEmpty = false := by
      simp [List.isEmpty_iff, hne2]
    rw [normalize_isbn, if_neg (by simp [he])]
    congr 1
    have ht : (s.take 1).filter isbnChar = s.take 1 :=
      List.filter_eq_self.mpr fun c hc => hn c (List.mem_of_mem_take hc)
    simp only [List.filter_append, List.filter_cons, hx, Bool.false_eq_true,
      if_false, ht, filter_isbn_take_drop s hn]
    exact isbn10_decomp s h
  · rw [format_isbn_13 s h]
    have hne : (s.take 3).length = 3 := by simp [h]
    have hne2 : s.take 3 ++ '-' :: ((s.drop 3).take 1 ++ '-' :: ((s.drop 4).take 3 ++
        '-' :: ((s.drop 7).take 5 ++ '-' :: (s.drop 12).take 1))) ≠ [] := by
      intro hh
      have := congrArg List.length hh
      simp [hne] at this
    have he : (s.take 3 ++ '-' :: ((s.drop 3).take 1 ++ '-' :: ((s.drop 4).take 3 ++
        '-' :: ((s.drop 7).take 5 ++ '-' :: (s.drop 12).take 1)))).isEmpty = false := by
      simp [List.isEmpty_iff, hne2]
    rw [normalize_isbn, if_neg (by simp [he])]
    congr 1
    have ht : (s.take 3).filter isbnChar = s.take 3 :=
      List.filter_eq_self.mpr fun c hc => hn c (List.mem_of_mem_take hc)
    simp only [List.filter_append, List.filter_cons, hx, Bool.false_eq_true,
      if_false, ht, filter_isbn_take_drop s hn]
    exact isbn13_decomp s h

/-- C9 witness: round trip on the concrete normalized ISBN `9783161484100`. -/
theorem normalize_format_isbn_roundtrip_witness :
    normalize_isbn (format_isbn (some "9783161484100".toList)) =
      some "9783161484100".toList :=
  normalize_format_isbn_roundtrip "9783161484100".toList
    (by decide) (Or.inr (by decide))

theorem splitOnC_not_mem (sep : Char) (xs : List Char) (h : sep ∉ xs) :
    splitOnC sep xs = [xs] := by
  induction xs with
  | nil => rfl
  | cons c rest ih =>
    have hc : (c == sep) = false := by
      simp only [beq_eq_false_iff_ne]
      intro hh
      exact h (by rw [hh]; exact List.mem_cons_self sep rest)
    have hr : sep ∉ rest := fun hm => h (List.mem_cons_of_mem c hm)
    simp [splitOnC, hc, ih hr]

theorem splitOnC_append (sep : Char) (xs rest : List Char) (h : sep ∉ xs) :
    splitOnC sep (xs ++ sep :: rest) = xs :: splitOnC sep rest := by
  induction xs with
  | nil => simp [splitOnC]
  | cons c t ih =>
    have hc : (c == sep) = false := by
      simp only [beq_eq_false_iff_ne]
      intro hh
      exact h (by rw [hh]; exact List.mem_cons_self sep t)
    have ht : sep ∉ t := fun hm => h (List.mem_cons_of_mem c hm)
    simp [splitOnC, hc, ih ht]

theorem not_dash_mem (s : List Char) (hn : NormalizedIsbn s) : '-' ∉ s :=
  fun hm => absurd (hn '-' hm) (by decide)

/-- C8: formatting a normalized length-13 ISBN yields hyphen-separated
groups of sizes 3-1-3-5-1 and a normalized length-10 ISBN groups of sizes
1-3-5-1, the characters appearing in their original order (the groups
concatenate back to the input). -/
theorem format_isbn_groups (s : List Char) (hn : NormalizedIsbn s) :
    (s.length = 13 →
      (splitOnC '-' (format_isbn (some s))).map List.length = [3, 1, 3, 5, 1] ∧
      (splitOnC '-' (format_isbn (some s))).flatten = s) ∧
    (s.length = 10 →
      (splitOnC '-' (format_isbn (some s))).map List.length = [1, 3, 5, 1] ∧
      (splitOnC '-' (format_isbn (some s))).flatten = s) := by
  have hd : '-' ∉ s := not_dash_mem s hn
  constructor
  · intro h
    rw [format_isbn_13 s h]
    rw [splitOnC_append '-' _ _ (fun hm => hd (List.mem_of_mem_take hm)),
      splitOnC_append '-' _ _
        (fun hm => hd (List.mem_of_mem_drop (List.mem_of_mem_take hm))),
      splitOnC_append '-' _ _
        (fun hm => hd (List.mem_of_mem_drop (List.mem_of_mem_take hm))),
      splitOnC_append '-' _ _
        (fun hm => hd (List.mem_of_mem_drop (List.mem_of_mem_take hm))),
      splitOnC_not_mem '-' _
        (fun hm => hd (List.mem_of_mem_drop (List.mem_of_mem_take hm)))]
    constructor
    · simp [h]
    · simpa [List.flatten] using isbn13_decomp s h
  · intro h
    rw [format_isbn_10 s h]
    rw [splitOnC_append '-' _ _ (fun hm => hd (List.mem_of_mem_take hm)),
      splitOnC_append '-' _ _
        (fun hm => hd (List.mem_of_mem_drop (List.mem_of_mem_take hm))),
      splitOnC_append '-' _ _
        (fun hm => hd (List.mem_of_mem_drop (List.mem_of_mem_take hm))),
      splitOnC_not_mem '-' _
        (fun hm => hd (List.mem_of_mem_drop (List.mem_of_mem_take hm)))]
    constructor
    · simp [h]
    · simpa [List.flatten] using isbn10_decomp s h

/-- C8 witness: concrete groupings for a 13-digit and a 10-digit
normalized ISBN. -/
theorem format_isbn_groups_witness :
    ((splitOnC '-' (format_isbn (some "9783161484100".toList))).map List.length =
      [3, 1, 3, 5, 1] ∧
     (splitOnC '-' (format_isbn (some "9783161484100".toList))).flatten =
      "9783161484100".toList) ∧
    ((splitOnC '-' (format_isbn (some "3161484100".toList))).map List.length =
      [1, 3, 5, 1] ∧
     (splitOnC '-' (format_isbn (some "3161484100".toList))).flatten =
      "3161484100".toList) :=
  ⟨(format_isbn_groups "9783161484100".toList (by decide)).1 (by decide),
   (format_isbn_groups "3161484100".toList (by decide)).2 (by decide)⟩

/-! ### C7: delete_book -/

theorem eraseP_eq_filter_of_unique (l : List BookRec)
    (hu : l.Pairwise (fun a b => a.id ≠ b.id)) (bid : Int) :
    l.eraseP (fun b => b.id == bid) = l.filter (fun b => b.id != bid) := by
  induction l with
  | nil => rfl
  | cons x t ih =>
    rcases hu with _ | ⟨hx, ht⟩
    by_cases hid : x.id = bid
    · have hp : (x.id == bid) = true := by simp [hid]
      have hkeep : t.filter (fun b => b.id != bid) = t :=
        List.filter_eq_self.mpr fun b hb => by
          simp only [bne_iff_ne, ne_eq]
          intro hh
          exact hx b hb (by rw [hid, hh])
      simp [List.eraseP_cons, List.filter_cons, hp, hid, hkeep]
    · have hp : (x.id == bid) = false := by simp [hid]
      simp [List.eraseP_cons, List.filter_cons, hp, hid, ih ht]

/-- C7: deleting an existing book id removes exactly the book with that id,
leaving all other books (in order) and all authors unchanged; deleting a
nonexistent id reports not-found and changes nothing. -/
theorem delete_book_spec (books : List BookRec) (authors : List AuthorRec)
    (bid : Int) (huniq : books.Pairwise (fun a b => a.id ≠ b.id)) :
    ((∀ b ∈ books, b.id ≠ bid) →
      delete_book books authors bid = ⟨books, authors, false⟩) ∧
    (∀ b ∈ books, b.id = bid →
      delete_book books authors bid =
        ⟨books.filter (fun x => x.id != bid), authors, true⟩) := by
  constructor
  · intro h
    have hf : books.find? (fun x => x.id == bid) = none := by
      rw [List.find?_eq_none]
      intro x hx
      simp [h x hx]
    simp [delete_book, hf]
  · intro b hb hbid
    have hs : (books.find? (fun x => x.id == bid)).isSome := by
      rw [List.find?_isSome]
      exact ⟨b, hb, by simp [hbid]⟩
    cases hfind : books.find? (fun x => x.id == bid) with
    | none => rw [hfind] at hs; simp at hs
    | some c =>
      simp [delete_book, hfind, eraseP_eq_filter_of_unique books huniq bid]

/-- C7 witness: deleting id 1 from a two-book store removes exactly that
book; deleting id 5 is a not-found outcome leaving the store unchanged. -/
theorem delete_book_spec_witness :
    delete_book
      [⟨1, none, ['a'], 2000, 1⟩, ⟨2, none, ['b'], 2001, 1⟩]
      [⟨1, ['n'], none, none⟩] 1 =
      ⟨[⟨2, none, ['b'], 2001, 1⟩], [⟨1, ['n'], none, none⟩], true⟩ ∧
    delete_book
      [⟨1, none, ['a'], 2000, 1⟩, ⟨2, none, ['b'], 2001, 1⟩]
      [⟨1, ['n'], none, none⟩] 5 =
      ⟨[⟨1, none, ['a'], 2000, 1⟩, ⟨2, none, ['b'], 2001, 1⟩],
        [⟨1, ['n'], none, none⟩], false⟩ := by
  constructor
  · have h := (delete_book_spec
      [⟨1, none, ['a'], 2000, 1⟩, ⟨2, none, ['b'], 2001, 1⟩]
      [⟨1, ['n'], none, none⟩] 1 (by decide)).2
      ⟨1, none, ['a'], 2000, 1⟩ (by simp) rfl
    rw [h]
    decide
  · exact (delete_book_spec
      [⟨1, none, ['a'], 2000, 1⟩, ⟨2, none, ['b'], 2001, 1⟩]
      [⟨1, ['n'], none, none⟩] 5 (by decide)).1 (by decide)

/-! ### C4 / C10: add_book duplicate handling -/

theorem validate_isbn_ok_val (s : List Char) (hs : s ≠ [])
    (v : Option (List Char)) (hv : validate_isbn s = .ok v) :
    v = some (s.filter isbnChar) := by
  cases s with
  | nil => exact absurd rfl hs
  | cons a t =>
    by_cases hl : ((a :: t).filter isbnChar).length = 10 ∨
        ((a :: t).filter isbnChar).length = 13
    · simp [validate_isbn, normalize_isbn, hl] at hv
      exact hv.symm
    · simp [validate_isbn, normalize_isbn, hl] at hv

/-- C4: whenever some stored book's ISBN equals the normalization of the
submitted ISBN field (hyphens and spacing in the submission are ignored by
normalization), `add_book` reports an error and the stored books are
unchanged. -/
theorem add_book_duplicate_rejected (cy newId : Int)
    (isbnF yearF titleF authorF : List Char) (books : List BookRec)
    (hne : isbnF ≠ []) (b : BookRec) (hb : b ∈ books)
    (hisbn : b.isbn = some (isbnF.filter isbnChar)) :
    (add_book cy newId isbnF yearF titleF authorF books).error.isSome = true ∧
    (add_book cy newId isbnF yearF titleF authorF books).books = books := by
  cases hvi : validate_isbn isbnF with
  | error e => simp [add_book, hvi]
  | ok isbn =>
    have hval := validate_isbn_ok_val isbnF hne isbn hvi
    subst hval
    cases hvy : validate_year yearF cy with
    | error e => simp [add_book, hvi, hvy]
    | ok y =>
      by_cases ht : (pyStrip titleF).isEmpty = true
      · simp [add_book, hvi, hvy, ht]
      · have hs : (books.find?
            (fun x => x.isbn == some (isbnF.filter isbnChar))).isSome := by
          rw [List.find?_isSome]
          exact ⟨b, hb, by simp [hisbn]⟩
        cases hfind : books.find?
            (fun x => x.isbn == some (isbnF.filter isbnChar)) with
        | none => rw [hfind] at hs; simp at hs
        | some c => simp [add_book, hvi, hvy, ht, hfind]

/-- C4 witness: a store holding normalized `9783161484100` rejects a
submission of `978-3-16-148410-0` and is left unchanged. -/
theorem add_book_duplicate_rejected_witness :
    (add_book 2026 2 "978-3-16-148410-0".toList "2000".toList "Neu".toList
      "1".toList [⟨1, some "9783161484100".toList, ['t'], 2000, 1⟩]).error.isSome
      = true ∧
    (add_book 2026 2 "978-3-16-148410-0".toList "2000".toList "Neu".toList
      "1".toList [⟨1, some "9783161484100".toList, ['t'], 2000, 1⟩]).books =
      [⟨1, some "9783161484100".toList, ['t'], 2000, 1⟩] :=
  add_book_duplicate_rejected 2026 2 "978-3-16-148410-0".toList "2000".toList
    "Neu".toList "1".toList [⟨1, some "9783161484100".toList, ['t'], 2000, 1⟩]
    (by decide) ⟨1, some "9783161484100".toList, ['t'], 2000, 1⟩
    (by simp) (by decide)

/-- C10: with an empty submitted ISBN field (validation yields no ISBN) and
some stored book lacking an ISBN, `add_book` — once year and title pass —
reports the duplicate-ISBN error (`filter_by(isbn=None)` matches the
ISBN-less row) and persists nothing. -/
theorem add_book_empty_isbn_duplicate (cy newId : Int)
    (yearF titleF authorF : List Char) (books : List BookRec)
    (b : BookRec) (hb : b ∈ books) (hisbn : b.isbn = none)
    (y : Int) (hy : pyInt yearF = some y) (h1 : 1450 ≤ y) (h2 : y ≤ cy + 1)
    (ht : pyStrip titleF ≠ []) :
    add_book cy newId [] yearF titleF authorF books =
      ⟨books, some (duplicateIsbnErr none)⟩ := by
  have hvi : validate_isbn [] = .ok none := rfl
  have hvy : validate_year yearF cy = .ok y := by
    have hb' : ¬(y < 1450 ∨ y > cy + 1) := by omega
    simp [validate_year, hy, hb']
  have ht' : (pyStrip titleF).isEmpty = false := by
    simpa [List.isEmpty_iff] using ht
  have hs : (books.find? (fun x => x.isbn == (none : Option (List Char)))).isSome := by
    rw [List.find?_isSome]
    exact ⟨b, hb, by simp [hisbn]⟩
  cases hfind : books.find? (fun x => x.isbn == (none : Option (List Char))) with
  | none => rw [hfind] at hs; simp at hs
  | some c => simp [add_book, hvi, hvy, ht', hfind]

/-- C10 witness: an ISBN-less stored book plus an empty ISBN submission with
valid year and title yields the duplicate-ISBN flash and no new book. -/
theorem add_book_empty_isbn_duplicate_witness :
    add_book 2026 2 [] "2000".toList "Neu".toList "1".toList
      [⟨1, none, ['t'], 2000, 1⟩] =
      ⟨[⟨1, none, ['t'], 2000, 1⟩],
        some "Ein Buch mit der ISBN  existiert bereits."⟩ := by
  have h := add_book_empty_isbn_duplicate 2026 2 "2000".toList "Neu".toList
    "1".toList [⟨1, none, ['t'], 2000, 1⟩] ⟨1, none, ['t'], 2000, 1⟩
    (by simp) rfl 2000 (by decide) (by decide) (by decide) (by decide)
  rw [h]
  rfl

/-! ### C5: add_author -/

/-- C5: `add_author` fails without persisting when the stripped name is
empty, when both dates parse and the death date strictly precedes the birth
date, or when a parsed birth or death date lies in the future; when every
validation passes (equal birth/death dates included) the author is
persisted. -/
theorem add_author_spec (today : DateT) (newId : Int)
    (nameF birthF deathF : List Char) (authors : List AuthorRec) :
    (pyStrip nameF = [] →
      (add_author today newId nameF birthF deathF authors).error.isSome = true ∧
      (add_author today newId nameF birthF deathF authors).authors = authors) ∧
    (∀ b d, optValidateDate birthF = .ok (some b) →
      optValidateDate deathF = .ok (some d) → dateLtB d b = true →
      (add_author today newId nameF birthF deathF authors).error.isSome = true ∧
      (add_author today newId nameF birthF deathF authors).authors = authors) ∧
    (∀ b, optValidateDate birthF = .ok (some b) → dateLtB today b = true →
      (add_author today newId nameF birthF deathF authors).error.isSome = true ∧
      (add_author today newId nameF birthF deathF authors).authors = authors) ∧
    (∀ d, optValidateDate deathF = .ok (some d) → dateLtB today d = true →
      (add_author today newId nameF birthF deathF authors).error.isSome = true ∧
      (add_author today newId nameF birthF deathF authors).authors = authors) ∧
    (∀ ob od, pyStrip nameF ≠ [] →
      optValidateDate birthF = .ok ob → optValidateDate deathF = .ok od →
      deathBeforeBirth ob od = false →
      dateInFuture today ob = false → dateInFuture today od = false →
      add_author today newId nameF birthF deathF authors =
        ⟨authors ++ [⟨newId, pyStrip nameF, ob, od⟩], none⟩) := by
  refine ⟨?_, ?_, ?_, ?_, ?_⟩
  · intro h
    have hn : (pyStrip nameF).isEmpty = true := by simp [List.isEmpty_iff, h]
    simp [add_author, hn]
  · intro b d hbirth hdeath hlt
    by_cases hn : (pyStrip nameF).isEmpty = true
    · simp [add_author, hn]
    · have hdb : deathBeforeBirth (some b) (some d) = true := by
        simp [deathBeforeBirth, hlt]
      simp [add_author, hn, hbirth, hdeath, hdb]
  · intro b hbirth hfut
    by_cases hn : (pyStrip nameF).isEmpty = true
    · simp [add_author, hn]
    · cases hdeath : optValidateDate deathF with
      | error e => simp [add_author, hn, hbirth, hdeath]
      | ok od =>
        by_cases hdb : deathBeforeBirth (some b) od = true
        · simp [add_author, hn, hbirth, hdeath, hdb]
        · have hf : dateInFuture today (some b) = true := by
            simp [dateInFuture, hfut]
          simp [add_author, hn, hbirth, hdeath, hdb, hf]
  · intro d hdeath hfut
    by_cases hn : (pyStrip nameF).isEmpty = true
    · simp [add_author, hn]
    · cases hbirth : optValidateDate birthF with
      | error e => simp [add_author, hn, hbirth]
      | ok ob =>
        by_cases hdb : deathBeforeBirth ob (some d) = true
        · simp [add_author, hn, hbirth, hdeath, hdb]
        · by_cases hbf : dateInFuture today ob = true
          · simp [add_author, hn, hbirth, hdeath, hdb, hbf]
          · have hf : dateInFuture today (some d) = true := by
              simp [dateInFuture, hfut]
            simp [add_author, hn, hbirth, hdeath, hdb, hbf, hf]
  · intro ob od hname hbirth hdeath hdb hbf hdf
    have hn : (pyStrip nameF).isEmpty = false := by
      simpa [List.isEmpty_iff] using hname
    simp [add_author, hn, hbirth, hdeath, hdb, hbf, hdf]

/-- C5 witness: equal birth and death dates (`1989` and `1989`) are
accepted and the author persists; a death date one day before the birth
date is rejected and nothing persists. -/
theorem add_author_spec_witness :
    add_author ⟨2026, 10, 12⟩ 1 "Ada".toList "1989".toList "1989".toList [] =
      ⟨[⟨1, "Ada".toList, some ⟨1989, 1, 1⟩, some ⟨1989, 1, 1⟩⟩], none⟩ ∧
    ((add_author ⟨2026, 10, 12⟩ 1 "Ada".toList "1989-12-31".toList
        "1989-12-30".toList []).error.isSome = true ∧
     (add_author ⟨2026, 10, 12⟩ 1 "Ada".toList "1989-12-31".toList
        "1989-12-30".toList []).authors = []) := by
  constructor
  · have h := (add_author_spec ⟨2026, 10, 12⟩ 1 "Ada".toList "1989".toList
      "1989".toList []).2.2.2.2 (some ⟨1989, 1, 1⟩) (some ⟨1989, 1, 1⟩)
      (by decide) rfl rfl (by decide) (by decide) (by decide)
    rw [h]
    rfl
  · exact (add_author_spec ⟨2026, 10, 12⟩ 1 "Ada".toList "1989-12-31".toList
      "1989-12-30".toList []).2.1 ⟨1989, 12, 31⟩ ⟨1989, 12, 30⟩
      rfl rfl (by decide)

/-! ### C6: listing, search, sort -/

theorem listCharLe_total (a b : List Char) :
    listCharLe a b = true ∨ listCharLe b a = true := by
  induction a generalizing b with
  | nil => left; rfl
  | cons c as ih =>
    cases b with
    | nil => right; rfl
    | cons d bs =>
      by_cases h1 : c.toNat < d.toNat
      · left; simp [listCharLe, h1]
      · by_cases h2 : d.toNat < c.toNat
        · right; simp [listCharLe, h2]
        · rcases ih bs with h | h
          · left; simp [listCharLe, h1, h2, h]
          · right; simp [listCharLe, h1, h2, h]

theorem listCharLe_trans (a b c : List Char) (hab : listCharLe a b = true)
    (hbc : listCharLe b c = true) : listCharLe a c = true := by
  induction a generalizing b c with
  | nil => rfl
  | cons x as ih =>
    cases b with
    | nil => simp [listCharLe] at hab
    | cons y bs =>
      cases c with
      | nil => simp [listCharLe] at hbc
      | cons z cs =>
        simp only [listCharLe] at hab hbc ⊢
        split_ifs at hab hbc ⊢ <;> first
          | rfl
          | omega
          | exact ih bs cs hab hbc

theorem insertBy_perm (le : α → α → Bool) (x : α) (l : List α) :
    (insertBy le x l).Perm (x :: l) := by
  induction l with
  | nil => exact List.Perm.refl [x]
  | cons y ys ih =>
    by_cases h : le x y = true
    · simp [insertBy, h]
    · simp only [insertBy, h, if_false, Bool.false_eq_true]
      exact (ih.cons y).trans (List.Perm.swap x y ys)

theorem isort_perm (le : α → α → Bool) (l : List α) :
    (isort le l).Perm l := by
  induction l with
  | nil => exact List.Perm.refl []
  | cons x xs ih =>
    exact (insertBy_perm le x (isort le xs)).trans (ih.cons x)

theorem insertBy_pairwise (le : α → α → Bool)
    (htot : ∀ a b, le a b = true ∨ le b a = true)
    (htrans : ∀ a b c, le a b = true → le b c = true → le a c = true)
    (x : α) (l : List α) (hp : l.Pairwise (fun a b => le a b = true)) :
    (insertBy le x l).Pairwise (fun a b => le a b = true) := by
  induction l with
  | nil => simp [insertBy]
  | cons y ys ih =>
    rcases List.pairwise_cons.mp hp with ⟨hy, hys⟩
    by_cases h : le x y = true
    · simp only [insertBy, h, if_true]
      refine List.pairwise_cons.mpr ⟨?_, hp⟩
      intro z hz
      rcases List.mem_cons.mp hz with hz | hz
      · rw [hz]; exact h
      · exact htrans x y z h (hy z hz)
    · have h' : le y x = true := (htot x y).resolve_left h
      simp only [insertBy, h, if_false, Bool.false_eq_true]
      refine List.pairwise_cons.mpr ⟨?_, ih hys⟩
      intro z hz
      have hz' : z ∈ x :: ys := (insertBy_perm le x ys).mem_iff.mp hz
      rcases List.mem_cons.mp hz' with hz' | hz'
      · rw [hz']; exact h'
      · exact hy z hz'

theorem isort_pairwise (le : α → α → Bool)
    (htot : ∀ a b, le a b = true ∨ le b a = true)
    (htrans : ∀ a b c, le a b = true → le b c = true → le a c = true)
    (l : List α) : (isort le l).Pairwise (fun a b => le a b = true) := by
  induction l with
  | nil => simp [isort]
  | cons x xs ih =>
    exact insertBy_pairwise le htot htrans x (isort le xs) ih

/-- Patterns without SQL LIKE wildcard characters. -/
def noWildcards (p : List Char) : Prop := ∀ c ∈ p, c ≠ '%' ∧ c ≠ '_'

instance (p : List Char) : Decidable (noWildcards p) := by
  unfold noWildcards
  exact inferInstance

theorem suffixesL_mem (v t : List Char) :
    v ∈ suffixesL t ↔ ∃ u, t = u ++ v := by
  induction t with
  | nil =>
    simp only [suffixesL, List.mem_singleton]
    constructor
    · intro h; exact ⟨[], by simp [h]⟩
    · rintro ⟨u, hu⟩
      rcases List.append_eq_nil.mp hu.symm with ⟨_, h2⟩
      exact h2
  | cons c rest ih =>
    simp only [suffixesL, List.mem_cons, ih]
    constructor
    · rintro (h | ⟨u, hu⟩)
      · exact ⟨[], by simp [h]⟩
      · exact ⟨c :: u, by simp [hu]⟩
    · rintro ⟨u, hu⟩
      cases u with
      | nil => left; simpa using hu.symm
      | cons x xs =>
        right
        rcases List.cons_eq_cons.mp hu with ⟨_, h2⟩
        exact ⟨xs, h2⟩

theorem likeMatch_pct (ps t : List Char) :
    likeMatch ('%' :: ps) t = true ↔
      ∃ u v, t = u ++ v ∧ likeMatch ps v = true := by
  simp only [likeMatch, beq_self_eq_true, if_true, List.any_eq_true]
  constructor
  · rintro ⟨v, hv, hm⟩
    rcases (suffixesL_mem v t).mp hv with ⟨u, hu⟩
    exact ⟨u, v, hu, hm⟩
  · rintro ⟨u, v, ht, hm⟩
    exact ⟨v, (suffixesL_mem v t).mpr ⟨u, ht⟩, hm⟩

theorem likeMatch_lit (p : List Char) (hnw : noWildcards p) (v : List Char) :
    likeMatch (p ++ ['%']) v = true ↔ ∃ w, v = p ++ w := by
  induction p generalizing v with
  | nil =>
    simp only [List.nil_append]
    constructor
    · intro _; exact ⟨v, rfl⟩
    · intro _
      simp only [likeMatch, beq_self_eq_true, if_true, List.any_eq_true]
      exact ⟨[], (suffixesL_mem [] v).mpr ⟨v, by simp⟩, rfl⟩
  | cons c p ih =>
    have hc1 : c ≠ '%' := (hnw c (List.mem_cons_self c p)).1
    have hc2 : c ≠ '_' := (hnw c (List.mem_cons_self c p)).2
    have hnw' : noWildcards p := fun x hx => hnw x (List.mem_cons_of_mem c hx)
    have hb1 : (c == '%') = false := by simp [hc1]
    have hb2 : (c == '_') = false := by simp [hc2]
    cases v with
    | nil =>
      constructor
      · intro h
        simp [likeMatch, hb1] at h
      · rintro ⟨w, hw⟩
        simp at hw
    | cons d ts =>
      simp only [List.cons_append, likeMatch, hb1, Bool.false_eq_true, if_false,
        hb2, Bool.false_or, Bool.and_eq_true, beq_iff_eq]
      constructor
      · rintro ⟨hcd, hm⟩
        rcases (ih hnw' ts).mp hm with ⟨w, hw⟩
        exact ⟨w, by rw [hcd, hw]⟩
      · rintro ⟨w, hw⟩
        rcases List.cons_eq_cons.mp hw with ⟨h1, h2⟩
        exact ⟨h1.symm, (ih hnw' ts).mpr ⟨w, h2⟩⟩

theorem likeMatch_contains (p t : List Char) (hnw : noWildcards p) :
    likeMatch ('%' :: (p ++ ['%'])) t = true ↔ ∃ u w, t = u ++ p ++ w := by
  rw [likeMatch_pct]
  constructor
  · rintro ⟨u, v, ht, hm⟩
    rcases (likeMatch_lit p hnw v).mp hm with ⟨w, hw⟩
    exact ⟨u, w, by rw [ht, hw, List.append_assoc]⟩
  · rintro ⟨u, w, ht⟩
    exact ⟨u, p ++ w, by rw [ht, List.append_assoc],
      (likeMatch_lit p hnw (p ++ w)).mpr ⟨w, rfl⟩⟩

theorem lowerL_ilikePattern (term : List Char) :
    lowerL (ilikePattern term) = '%' :: (lowerL term ++ ['%']) := by
  simp [lowerL, ilikePattern]

theorem charOfNat_toNat (n : Nat) (h1 : 97 ≤ n) (h2 : n ≤ 122) :
    (Char.ofNat n).toNat = n := by
  unfold Char.ofNat
  rw [dif_pos (Or.inl (by omega))]
  unfold Char.ofNatAux
  simp [Char.toNat, UInt32.toNat, BitVec.toNat_ofNatLt]

theorem toLower_not_wild (c : Char) (h1 : c ≠ '%') (h2 : c ≠ '_') :
    c.toLower ≠ '%' ∧ c.toLower ≠ '_' := by
  have hl : c.toLower =
      if c.toNat ≥ 65 ∧ c.toNat ≤ 90 then Char.ofNat (c.toNat + 32) else c := rfl
  rw [hl]
  by_cases h : c.toNat ≥ 65 ∧ c.toNat ≤ 90
  · rw [if_pos h]
    refine ⟨?_, ?_⟩ <;> intro he
    · have ht := congrArg Char.toNat he
      rw [charOfNat_toNat _ (by omega) (by omega)] at ht
      rw [show Char.toNat '%' = 37 from rfl] at ht
      omega
    · have ht := congrArg Char.toNat he
      rw [charOfNat_toNat _ (by omega) (by omega)] at ht
      rw [show Char.toNat '_' = 95 from rfl] at ht
      omega
  · rw [if_neg h]
    exact ⟨h1, h2⟩

theorem noWildcards_lower (term : List Char) (h : noWildcards term) :
    noWildcards (lowerL term) := by
  intro c hc
  rcases List.mem_map.mp hc with ⟨d, hd, hdc⟩
  rcases h d hd with ⟨h1, h2⟩
  rw [← hdc]
  exact toLower_not_wild d h1 h2

/-- C6 counterexample: the search filter is SQL `LIKE`, not plain substring
containment: the term `_b` (whose `_` is a LIKE wildcard) returns the book
titled `ab` although `_b` is not a substring of `ab` (case-insensitively
or otherwise). -/
theorem home_like_wildcard_counterexample :
    home [⟨1, none, "ab".toList, 2000, 1⟩] [] "_b".toList [] =
      [⟨1, none, "ab".toList, 2000, 1⟩] ∧
    ¬ ∃ u v, lowerL "ab".toList = u ++ lowerL "_b".toList ++ v := by
  constructor
  · rfl
  · rintro ⟨u, v, h⟩
    rw [show lowerL "ab".toList = ['a', 'b'] from rfl,
      show lowerL "_b".toList = ['_', 'b'] from rfl] at h
    have hl := congrArg List.length h
    simp at hl
    have hu : u = [] := List.length_eq_zero.mp (by omega)
    have hv : v = [] := List.length_eq_zero.mp (by omega)
    subst hu
    subst hv
    simp at h

/-- C6 (amended): with a non-empty search term `home` returns exactly the
books whose title matches the term under case-insensitive SQL LIKE
semantics (`%`/`_` in the term are wildcards); for a wildcard-free term
that is exactly case-insensitive substring containment; sort key `title`
gives a permutation of the filtered books ascending by title; sort key
`author` joins to the authors and gives a permutation ascending by author
name; no search term and no sort key returns storage order. -/
theorem home_spec (books : List BookRec) (authors : List AuthorRec)
    (term sortKey : List Char) :
    (term ≠ [] → sortKey ≠ "title".toList → sortKey ≠ "author".toList →
      home books authors term sortKey = books.filter (titleMatches term)) ∧
    (noWildcards term → ∀ b : BookRec, titleMatches term b = true ↔
      ∃ u v, lowerL b.title = u ++ lowerL term ++ v) ∧
    (sortKey = "title".toList →
      (home books authors term sortKey).Perm
        (if term.isEmpty then books else books.filter (titleMatches term)) ∧
      (home books authors term sortKey).Pairwise
        (fun a b => listCharLe a.title b.title = true)) ∧
    (sortKey = "author".toList →
      (home books authors term sortKey).Perm
        ((if term.isEmpty then books else books.filter (titleMatches term)).filter
          (hasAuthor authors)) ∧
      (home books authors term sortKey).Pairwise
        (fun a b =>
          listCharLe (authorNameOf authors a) (authorNameOf authors b) = true)) ∧
    (term = [] → sortKey ≠ "title".toList → sortKey ≠ "author".toList →
      home books authors term sortKey = books) := by
  refine ⟨?_, ?_, ?_, ?_, ?_⟩
  · intro hterm hs1 hs2
    have he : term.isEmpty = false := by simpa [List.isEmpty_iff] using hterm
    have hs1' : sortKey ≠ ['t', 'i', 't', 'l', 'e'] := hs1
    have hs2' : sortKey ≠ ['a', 'u', 't', 'h', 'o', 'r'] := hs2
    simp [home, he, hs1', hs2']
  · intro hnw b
    have hp := lowerL_ilikePattern term
    rw [titleMatches, hp]
    exact likeMatch_contains (lowerL term) (lowerL b.title)
      (noWildcards_lower term hnw)
  · intro hs
    subst hs
    have hq : home books authors term "title".toList =
        isort (fun a b => listCharLe a.title b.title)
          (if term.isEmpty then books else books.filter (titleMatches term)) := by
      simp [home]
    rw [hq]
    constructor
    · exact isort_perm _ _
    · exact isort_pairwise _
        (fun (a b : BookRec) => listCharLe_total a.title b.title)
        (fun (a b c : BookRec) hab hbc =>
          listCharLe_trans a.title b.title c.title hab hbc) _
  · intro hs
    subst hs
    have hq : home books authors term "author".toList =
        isort (fun a b =>
            listCharLe (authorNameOf authors a) (authorNameOf authors b))
          ((if term.isEmpty then books
            else books.filter (titleMatches term)).filter (hasAuthor authors)) := by
      simp [home]
    rw [hq]
    constructor
    · exact isort_perm _ _
    · exact isort_pairwise _
        (fun a b => listCharLe_total (authorNameOf authors a) (authorNameOf authors b))
        (fun a b c hab hbc => listCharLe_trans (authorNameOf authors a)
          (authorNameOf authors b) (authorNameOf authors c) hab hbc) _
  · intro hterm hs1 hs2
    have he : term.isEmpty = true := by simp [hterm]
    have hs1' : sortKey ≠ ['t', 'i', 't', 'l', 'e'] := hs1
    have hs2' : sortKey ≠ ['a', 'u', 't', 'h', 'o', 'r'] := hs2
    simp [home, he, hs1', hs2']

/-- C6 witness: a concrete search returning both matching books unsorted,
the substring characterization of a wildcard-free term, and a sorted-by-title
listing being a permutation of the store. -/
theorem home_spec_witness :
    home [⟨1, none, "Beta".toList, 2000, 1⟩, ⟨2, none, "alpha".toList, 2001, 1⟩]
      [] "A".toList [] =
      [⟨1, none, "Beta".toList, 2000, 1⟩, ⟨2, none, "alpha".toList, 2001, 1⟩] ∧
    (titleMatches "A".toList ⟨1, none, "Beta".toList, 2000, 1⟩ = true ↔
      ∃ u v, lowerL "Beta".toList = u ++ lowerL "A".toList ++ v) ∧
    (home [⟨1, none, "Beta".toList, 2000, 1⟩, ⟨2, none, "alpha".toList, 2001, 1⟩]
      [] [] "title".toList).Perm
      [⟨1, none, "Beta".toList, 2000, 1⟩, ⟨2, none, "alpha".toList, 2001, 1⟩] := by
  refine ⟨?_, ?_, ?_⟩
  · have h := (home_spec
      [⟨1, none, "Beta".toList, 2000, 1⟩, ⟨2, none, "alpha".toList, 2001, 1⟩]
      [] "A".toList []).1 (by decide) (by decide) (by decide)
    rw [h]
    rfl
  · exact (home_spec
      [⟨1, none, "Beta".toList, 2000, 1⟩, ⟨2, none, "alpha".toList, 2001, 1⟩]
      [] "A".toList []).2.1 (by decide) ⟨1, none, "Beta".toList, 2000, 1⟩
  · have h := (home_spec
      [⟨1, none, "Beta".toList, 2000, 1⟩, ⟨2, none, "alpha".toList, 2001, 1⟩]
      [] [] "title".toList).2.2.1 rfl
    simpa using h.1

/-! ### C2: date validation -/

/-- Join groups with a separator character (inverse of `splitOnC`). -/
def joinSep (sep : Char) : List (List Char) → List Char
  | [] => []
  | [g] => g
  | g :: gs => g ++ sep :: joinSep sep gs

theorem splitOnC_ne_nil (sep : Char) (t : List Char) : splitOnC sep t ≠ [] := by
  cases t with
  | nil => simp [splitOnC]
  | cons c rest =>
    by_cases h : (c == sep) = true
    · simp [splitOnC, h]
    · simp only [splitOnC, h, Bool.false_eq_true, if_false]
      cases splitOnC sep rest with
      | nil => simp
      | cons g gs => simp

theorem splitOnC_join (sep : Char) (t : List Char) :
    joinSep sep (splitOnC sep t) = t := by
  induction t with
  | nil => rfl
  | cons c rest ih =>
    by_cases h : (c == sep) = true
    · have hc : c = sep := beq_iff_eq.mp h
      cases hr : splitOnC sep rest with
      | nil => exact absurd hr (splitOnC_ne_nil sep rest)
      | cons g gs =>
        rw [hr] at ih
        simp only [splitOnC, h, if_true, hr, joinSep, List.nil_append]
        rw [ih, hc]
    · cases hr : splitOnC sep rest with
      | nil => exact absurd hr (splitOnC_ne_nil sep rest)
      | cons g gs =>
        rw [hr] at ih
        simp only [splitOnC, h, Bool.false_eq_true, if_false, hr]
        cases gs with
        | nil =>
          simp only [joinSep] at ih ⊢
          rw [ih]
        | cons g2 gs2 =>
          simp only [joinSep, List.cons_append] at ih ⊢
          rw [ih]

theorem splitOnC_sep_not_mem (sep : Char) (t : List Char) :
    ∀ g ∈ splitOnC sep t, sep ∉ g := by
  induction t with
  | nil =>
    intro g hg
    simp [splitOnC] at hg
    simp [hg]
  | cons c rest ih =>
    intro g hg
    by_cases h : (c == sep) = true
    · simp only [splitOnC, h, if_true, List.mem_cons] at hg
      rcases hg with hg | hg
      · simp [hg]
      · exact ih g hg
    · cases hr : splitOnC sep rest with
      | nil => exact absurd hr (splitOnC_ne_nil sep rest)
      | cons p ps =>
        simp only [splitOnC, h, Bool.false_eq_true, if_false, hr,
          List.mem_cons] at hg
        have hcs : c ≠ sep := by
          intro hh
          rw [hh] at h
          simp at h
        rcases hg with hg | hg
        · rw [hg]
          intro hm
          rcases List.mem_cons.mp hm with hm | hm
          · exact hcs hm.symm
          · exact ih p (by rw [hr]; exact List.mem_cons_self p ps) hm
        · exact ih g (by rw [hr]; exact List.mem_cons_of_mem p hg)

/-- Spec-side "full date, year-month-day" form: a 4-digit year, a hyphen, a
1-2-digit month, a hyphen, a 1-2-digit day, denoting a valid calendar date
of years 1..9999. -/
def YMDForm (t : List Char) (dt : DateT) : Prop :=
  ∃ ys ms ds, t = ys ++ '-' :: (ms ++ '-' :: ds) ∧
    ys.length = 4 ∧ ys.all Char.isDigit = true ∧
    fieldOK ms 12 ∧ fieldOK ds 31 ∧
    dt = ⟨natOfDigits ys, natOfDigits ms, natOfDigits ds⟩ ∧
    1 ≤ natOfDigits ys ∧ natOfDigits ys ≤ 9999 ∧
    natOfDigits ds ≤ daysInMonth (natOfDigits ys) (natOfDigits ms)

/-- Spec-side "full date, day.month.year" form. -/
def DMYForm (t : List Char) (dt : DateT) : Prop :=
  ∃ ds ms ys, t = ds ++ '.' :: (ms ++ '.' :: ys) ∧
    ys.length = 4 ∧ ys.all Char.isDigit = true ∧
    fieldOK ms 12 ∧ fieldOK ds 31 ∧
    dt = ⟨natOfDigits ys, natOfDigits ms, natOfDigits ds⟩ ∧
    1 ≤ natOfDigits ys ∧ natOfDigits ys ≤ 9999 ∧
    natOfDigits ds ≤ daysInMonth (natOfDigits ys) (natOfDigits ms)

/-- Spec-side bare-year form (as the code implements it): a 4-character
string accepted by Python `int(...)` with value in 1..9999. -/
def YearForm (t : List Char) (y : Int) : Prop :=
  t.length = 4 ∧ pyInt t = some y ∧ 1 ≤ y ∧ y ≤ 9999

theorem strptimeYMD_eq_some_iff (t : List Char) (dt : DateT) :
    strptimeYMD t = some dt ↔ YMDForm t dt := by
  constructor
  · intro hp
    unfold strptimeYMD at hp
    rcases hsp : splitOnC '-' t with _ | ⟨ys, _ | ⟨ms, _ | ⟨ds, _ | ⟨e4, r⟩⟩⟩⟩ <;>
      rw [hsp] at hp <;> try simp at hp
    rcases hp with ⟨⟨h4, hdig, hm, hd⟩, hmk⟩
    unfold mkDatetime at hmk
    split_ifs at hmk with hval
    rcases hval with ⟨hy1, hy2, _, _, _, hday⟩
    have hj := splitOnC_join '-' t
    rw [hsp] at hj
    simp only [joinSep] at hj
    injection hmk with hmk
    exact ⟨ys, ms, ds, hj.symm, h4, List.all_eq_true.mpr hdig, hm, hd,
      hmk.symm, hy1, hy2, hday⟩
  · rintro ⟨ys, ms, ds, heq, h4, hdig, hm, hd, hdt, hy1, hy2, hday⟩
    have hdys : ('-' : Char) ∉ ys := by
      intro hm'
      have := List.all_eq_true.mp hdig _ hm'
      exact absurd this (by decide)
    have hdms : ('-' : Char) ∉ ms := by
      intro hm'
      have := List.all_eq_true.mp hm.2.2.1 _ hm'
      exact absurd this (by decide)
    have hdds : ('-' : Char) ∉ ds := by
      intro hm'
      have := List.all_eq_true.mp hd.2.2.1 _ hm'
      exact absurd this (by decide)
    have hsp : splitOnC '-' t = [ys, ms, ds] := by
      rw [heq, splitOnC_append '-' ys _ hdys, splitOnC_append '-' ms _ hdms,
        splitOnC_not_mem '-' ds hdds]
    unfold strptimeYMD
    rw [hsp]
    show (if ys.length = 4 ∧ ys.all Char.isDigit = true ∧
        fieldOK ms 12 ∧ fieldOK ds 31
      then mkDatetime (natOfDigits ys) (natOfDigits ms) (natOfDigits ds)
      else none) = some dt
    rw [if_pos ⟨h4, hdig, hm, hd⟩]
    unfold mkDatetime
    rw [if_pos ⟨hy1, hy2, hm.2.2.2.1, hm.2.2.2.2, hd.2.2.2.1, hday⟩, hdt]

theorem strptimeDMY_eq_some_iff (t : List Char) (dt : DateT) :
    strptimeDMY t = some dt ↔ DMYForm t dt := by
  constructor
  · intro hp
    unfold strptimeDMY at hp
    rcases hsp : splitOnC '.' t with _ | ⟨ds, _ | ⟨ms, _ | ⟨ys, _ | ⟨e4, r⟩⟩⟩⟩ <;>
      rw [hsp] at hp <;> try simp at hp
    rcases hp with ⟨⟨h4, hdig, hm, hd⟩, hmk⟩
    unfold mkDatetime at hmk
    split_ifs at hmk with hval
    rcases hval with ⟨hy1, hy2, _, _, _, hday⟩
    have hj := splitOnC_join '.' t
    rw [hsp] at hj
    simp only [joinSep] at hj
    injection hmk with hmk
    exact ⟨ds, ms, ys, hj.symm, h4, List.all_eq_true.mpr hdig, hm, hd,
      hmk.symm, hy1, hy2, hday⟩
  · rintro ⟨ds, ms, ys, heq, h4, hdig, hm, hd, hdt, hy1, hy2, hday⟩
    have hdds : ('.' : Char) ∉ ds := by
      intro hm'
      have := List.all_eq_true.mp hd.2.2.1 _ hm'
      exact absurd this (by decide)
    have hdms : ('.' : Char) ∉ ms := by
      intro hm'
      have := List.all_eq_true.mp hm.2.2.1 _ hm'
      exact absurd this (by decide)
    have hdys : ('.' : Char) ∉ ys := by
      intro hm'
      have := List.all_eq_true.mp hdig _ hm'
      exact absurd this (by decide)
    have hsp : splitOnC '.' t = [ds, ms, ys] := by
      rw [heq, splitOnC_append '.' ds _ hdds, splitOnC_append '.' ms _ hdms,
        splitOnC_not_mem '.' ys hdys]
    unfold strptimeDMY
    rw [hsp]
    show (if ys.length = 4 ∧ ys.all Char.isDigit = true ∧
        fieldOK ms 12 ∧ fieldOK ds 31
      then mkDatetime (natOfDigits ys) (natOfDigits ms) (natOfDigits ds)
      else none) = some dt
    rw [if_pos ⟨h4, hdig, hm, hd⟩]
    unfold mkDatetime
    rw [if_pos ⟨hy1, hy2, hm.2.2.2.1, hm.2.2.2.2, hd.2.2.2.1, hday⟩, hdt]

theorem YMDForm_length (t : List Char) (dt : DateT) (h : YMDForm t dt) :
    8 ≤ t.length := by
  rcases h with ⟨ys, ms, ds, heq, h4, _, hm, hd, _⟩
  have hms : 1 ≤ ms.length := List.length_pos.mpr hm.1
  have hds : 1 ≤ ds.length := List.length_pos.mpr hd.1
  rw [heq]
  simp [h4]
  omega

theorem DMYForm_length (t : List Char) (dt : DateT) (h : DMYForm t dt) :
    8 ≤ t.length := by
  rcases h with ⟨ds, ms, ys, heq, h4, _, hm, hd, _⟩
  have hms : 1 ≤ ms.length := List.length_pos.mpr hm.1
  have hds : 1 ≤ ds.length := List.length_pos.mpr hd.1
  rw [heq]
  simp [h4]
  omega

theorem YMDForm_dash_mem (t : List Char) (dt : DateT) (h : YMDForm t dt) :
    '-' ∈ t := by
  rcases h with ⟨ys, ms, ds, heq, _⟩
  rw [heq]
  simp

theorem DMYForm_no_dash (t : List Char) (dt : DateT) (h : DMYForm t dt) :
    '-' ∉ t := by
  rcases h with ⟨ds, ms, ys, heq, h4, hdig, hm, hd, _⟩
  rw [heq]
  intro hmem
  have hnd : ∀ l : List Char, l.all Char.isDigit = true → ('-' : Char) ∉ l := by
    intro l hl hm'
    have := List.all_eq_true.mp hl _ hm'
    exact absurd this (by decide)
  rcases List.mem_append.mp hmem with h' | h'
  · exact hnd ds hd.2.2.1 h'
  · rcases List.mem_cons.mp h' with h' | h'
    · exact absurd h'.symm (by decide)
    · rcases List.mem_append.mp h' with h'' | h''
      · exact hnd ms hm.2.2.1 h''
      · rcases List.mem_cons.mp h'' with h'' | h''
        · exact absurd h''.symm (by decide)
        · exact hnd ys hdig h''

theorem DMYForm_dot_mem (t : List Char) (dt : DateT) (h : DMYForm t dt) :
    '.' ∈ t := by
  rcases h with ⟨ds, ms, ys, heq, _⟩
  rw [heq]
  simp

/-- C2 counterexample: the claim's "exactly three textual forms" fails both
ways at the length-4 branch: `"+123"` (not a bare 4-digit year) is accepted
as January 1 of year 123 because Python `int("+123")` succeeds, while the
bare 4-digit year `"0000"` is rejected because `datetime(0, 1, 1)` raises. -/
theorem validate_date_forms_counterexample :
    validate_date "+123".toList = .ok (some ⟨123, 1, 1⟩) ∧
    validate_date "0000".toList = .error (dateErrMsg "0000".toList) := by
  constructor <;> rfl

/-- C2 (amended): date validation accepts exactly: the year-month-day form,
the day.month.year form (4-digit year, 1-2-digit month and day, valid
calendar date in years 1..9999), and any 4-character string that Python
`int()` parses to a value in 1..9999, read as January 1 of that year (so
`"0000"` is rejected and `"+123"` is accepted); blank input yields no date
rather than an error; every other input fails with the error naming the
rejected value and the accepted formats. -/
theorem validate_date_spec (s : List Char) :
    (pyStrip s = [] → validate_date s = .ok none) ∧
    (∀ dt, YMDForm (pyStrip s) dt → validate_date s = .ok (some dt)) ∧
    (∀ dt, DMYForm (pyStrip s) dt → validate_date s = .ok (some dt)) ∧
    (∀ y : Int, YearForm (pyStrip s) y →
      validate_date s = .ok (some ⟨y.toNat, 1, 1⟩)) ∧
    (pyStrip s ≠ [] → (∀ dt, ¬ YMDForm (pyStrip s) dt) →
      (∀ dt, ¬ DMYForm (pyStrip s) dt) →
      (∀ y : Int, ¬ YearForm (pyStrip s) y) →
      validate_date s = .error (dateErrMsg (pyStrip s))) := by
  refine ⟨?_, ?_, ?_, ?_, ?_⟩
  · intro h
    simp [validate_date, h]
  · intro dt hf
    have hne : pyStrip s ≠ [] := by
      intro hh
      have := YMDForm_length (pyStrip s) dt hf
      rw [hh] at this
      simp at this
    have he : (pyStrip s).isEmpty = false := by
      simpa [List.isEmpty_iff] using hne
    have hymd : strptimeYMD (pyStrip s) = some dt :=
      (strptimeYMD_eq_some_iff _ _).mpr hf
    simp [validate_date, he, hymd]
  · intro dt hf
    have hne : pyStrip s ≠ [] := by
      intro hh
      have := DMYForm_length (pyStrip s) dt hf
      rw [hh] at this
      simp at this
    have he : (pyStrip s).isEmpty = false := by
      simpa [List.isEmpty_iff] using hne
    have hdmy : strptimeDMY (pyStrip s) = some dt :=
      (strptimeDMY_eq_some_iff _ _).mpr hf
    have hymd : strptimeYMD (pyStrip s) = none := by
      cases h : strptimeYMD (pyStrip s) with
      | none => rfl
      | some d2 =>
        have hf2 := (strptimeYMD_eq_some_iff _ _).mp h
        exact absurd (YMDForm_dash_mem _ _ hf2) (DMYForm_no_dash _ _ hf)
    simp [validate_date, he, hymd, hdmy]
  · intro y hy
    rcases hy with ⟨hlen, hint, h1, h2⟩
    have hne : pyStrip s ≠ [] := by
      intro hh
      rw [hh] at hlen
      simp at hlen
    have he : (pyStrip s).isEmpty = false := by
      simpa [List.isEmpty_iff] using hne
    have hymd : strptimeYMD (pyStrip s) = none := by
      cases h : strptimeYMD (pyStrip s) with
      | none => rfl
      | some d2 =>
        have := YMDForm_length _ _ ((strptimeYMD_eq_some_iff _ _).mp h)
        omega
    have hdmy : strptimeDMY (pyStrip s) = none := by
      cases h : strptimeDMY (pyStrip s) with
      | none => rfl
      | some d2 =>
        have := DMYForm_length _ _ ((strptimeDMY_eq_some_iff _ _).mp h)
        omega
    simp [validate_date, he, hymd, hdmy, hlen, hint, h1, h2]
  · intro hne hnymd hndmy hnyear
    have he : (pyStrip s).isEmpty = false := by
      simpa [List.isEmpty_iff] using hne
    have hymd : strptimeYMD (pyStrip s) = none := by
      cases h : strptimeYMD (pyStrip s) with
      | none => rfl
      | some d2 => exact absurd ((strptimeYMD_eq_some_iff _ _).mp h) (hnymd d2)
    have hdmy : strptimeDMY (pyStrip s) = none := by
      cases h : strptimeDMY (pyStrip s) with
      | none => rfl
      | some d2 => exact absurd ((strptimeDMY_eq_some_iff _ _).mp h) (hndmy d2)
    by_cases hlen : (pyStrip s).length = 4
    · cases hint : pyInt (pyStrip s) with
      | none => simp [validate_date, he, hymd, hdmy, hlen, hint]
      | some y =>
        have hcond : ¬(1 ≤ y ∧ y ≤ 9999) := by
          rintro ⟨h1, h2⟩
          exact hnyear y ⟨hlen, hint, h1, h2⟩
        simp [validate_date, he, hymd, hdmy, hlen, hint, hcond]
    · simp [validate_date, he, hymd, hdmy, hlen]

/-- C2 witness: `1989-12-31`, `31.12.1989` and `1989` are accepted with the
expected dates, blank input yields no date, and `1989/12/31` fails with the
descriptive error. -/
theorem validate_date_spec_witness :
    validate_date "1989-12-31".toList = .ok (some ⟨1989, 12, 31⟩) ∧
    validate_date "31.12.1989".toList = .ok (some ⟨1989, 12, 31⟩) ∧
    validate_date "1989".toList = .ok (some ⟨1989, 1, 1⟩) ∧
    validate_date "  ".toList = .ok none ∧
    validate_date "1989/12/31".toList =
      .error (dateErrMsg "1989/12/31".toList) := by
  refine ⟨?_, ?_, ?_, ?_, ?_⟩
  · exact (validate_date_spec "1989-12-31".toList).2.1 ⟨1989, 12, 31⟩
      ⟨['1', '9', '8', '9'], ['1', '2'], ['3', '1'], by decide, by decide,
        by decide, by decide, by decide, by decide, by decide, by decide,
        by decide⟩
  · exact (validate_date_spec "31.12.1989".toList).2.2.1 ⟨1989, 12, 31⟩
      ⟨['3', '1'], ['1', '2'], ['1', '9', '8', '9'], by decide, by decide,
        by decide, by decide, by decide, by decide, by decide, by decide,
        by decide⟩
  · have h := (validate_date_spec "1989".toList).2.2.2.1 1989
      ⟨by decide, by decide, by decide, by decide⟩
    simpa using h
  · exact (validate_date_spec "  ".toList).1 (by decide)
  · exact (validate_date_spec "1989/12/31".toList).2.2.2.2 (by decide)
      (fun dt h => absurd (YMDForm_dash_mem _ dt h) (by decide))
      (fun dt h => absurd (DMYForm_dot_mem _ dt h) (by decide))
      (fun y h => absurd h.1 (by decide))

end BookAlchemy
